import Mathlib

/-!
Shallow embedding of the FastAPI to-do service (`app/main.py`): a single
SQLite-backed table of tasks with CRUD route handlers.  The database state is
the list of table rows in insertion order; dates are day ordinals; each
handler is a pure function from the state (plus the validated request) to a
result and a new state.  Python/HTTP failures are an explicit error type:
`notFound` models `HTTPException(404)`, `validationError` models the 422
pydantic/FastAPI request-validation rejection that fires before a handler
runs, and `attributeFault` models an uncaught Python `AttributeError`
(surfaced as a 500).
-/

namespace ToDo

/-- Dates (`datetime.date`) modelled as day ordinals. -/
abbrev Date := Nat

/-- The persisted entity (`class Task(SQLModel, table=True)`):
`id` (integer primary key, generated), `title`, `completed`
(default `False`), `created_at` (default `date.today()`). -/
structure Task where
  id : Int
  title : String
  completed : Bool
  created_at : Date
deriving Repr, DecidableEq

/-- The POST request DTO (`class TaskCreate(BaseModel)`) after pydantic
validation: `title : str` required, `completed : Optional[bool] = False`,
`created_at : Optional[date] = None`. -/
structure TaskCreate where
  title : String
  completed : Option Bool
  created_at : Option Date
deriving Repr, DecidableEq

/-- The PUT/PATCH request DTO (`class UpdateTask(BaseModel)`) after pydantic
validation: `title : str` and `completed : bool`, both required and
non-nullable. -/
structure UpdateTask where
  title : String
  completed : Bool
deriving Repr, DecidableEq

/-- A raw JSON body for `UpdateTask` before validation; `none` means the
field is absent from the payload (or JSON `null`, which pydantic rejects
the same way for these non-Optional fields). -/
structure RawUpdate where
  title : Option String
  completed : Option Bool
deriving Repr, DecidableEq

/-- A raw JSON body for `TaskCreate` before validation; `none` means the
field is absent from the payload. -/
structure RawCreate where
  title : Option String
  completed : Option Bool
  created_at : Option Date
deriving Repr, DecidableEq

/-- Request failures: `notFound` is `HTTPException(status_code=404)`;
`validationError` is the 422 emitted by the input-validation layer;
`attributeFault` is an uncaught Python `AttributeError` (HTTP 500). -/
inductive Err where
  | notFound
  | validationError
  | attributeFault
deriving Repr, DecidableEq

/-- The database: the task table's rows in insertion order. -/
structure AppState where
  rows : List Task
deriving Repr, DecidableEq

/-- Primary-key uniqueness, maintained by the storage layer. -/
def AppState.WF (s : AppState) : Prop :=
  s.rows.Pairwise (fun a b => a.id ≠ b.id)

/-- Largest id currently in the table (0 when empty; the table is only ever
populated through this API, so ids are positive). -/
def maxId (rows : List Task) : Int :=
  rows.foldr (fun t m => max t.id m) 0

/-- SQLite assigns a fresh INTEGER PRIMARY KEY as one more than the largest
rowid in use. -/
def AppState.genId (s : AppState) : Int := maxId s.rows + 1

/-- pydantic validation of an `UpdateTask` body: both fields required. -/
def validateUpdate (r : RawUpdate) : Except Err UpdateTask :=
  match r.title, r.completed with
  | some t, some c => .ok ⟨t, c⟩
  | _, _ => .error .validationError

/-- pydantic validation of a `TaskCreate` body: `title` required (any string,
no non-emptiness constraint); `completed` defaults to `False`; `created_at`
defaults to `None`. -/
def validateCreate (r : RawCreate) : Except Err TaskCreate :=
  match r.title with
  | none => .error .validationError
  | some t => .ok ⟨t, some (r.completed.getD false), r.created_at⟩

/-- `POST /tasks/` handler (`create_task`).  `Task.from_orm(task)` builds a
table-model instance: the table model swallows validation failures, so a
`None` `completed`/`created_at` coming from the DTO leaves the `Task`
defaults (`False` / `date.today()`) in place, while present values are
copied; `session.add`/`commit` inserts the row with the generated id. -/
def create_task (today : Date) (s : AppState) (task : TaskCreate) :
    Task × AppState :=
  let db_task : Task :=
    { id := s.genId
      title := task.title
      completed := task.completed.getD false
      created_at := task.created_at.getD today }
  (db_task, ⟨s.rows ++ [db_task]⟩)

/-- `POST /tasks/` including the request-validation layer. -/
def create_endpoint (today : Date) (s : AppState) (r : RawCreate) :
    Except Err (Task × AppState) :=
  (validateCreate r).map (create_task today s)

/-- The two `if status is True / is False` branches of `get_tasks`, each
adding a `where` clause on `completed`. -/
def applyStatusFilter (status : Option Bool) (q : List Task) : List Task :=
  let q1 := if status = some true then q.filter (fun t => t.completed == true) else q
  if status = some false then q1.filter (fun t => t.completed == false) else q1

/-- `order_by(Task.created_at)` comparison. -/
def byCreated (a b : Task) : Bool := a.created_at ≤ b.created_at

/-- SQL `OFFSET`: a negative offset behaves as 0. -/
def applyOffset (off : Int) (l : List Task) : List Task := l.drop off.toNat

/-- SQL `LIMIT`: in SQLite a negative limit means no limit. -/
def applyLimit (lim : Int) (l : List Task) : List Task :=
  if lim < 0 then l else l.take lim.toNat

/-- `GET /tasks` handler (`get_tasks`): filter by completion status, sort
ascending by `created_at`, then apply offset and limit. -/
def get_tasks (s : AppState) (offset limit : Int) (status : Option Bool) :
    List Task :=
  applyLimit limit
    (applyOffset offset ((applyStatusFilter status s.rows).mergeSort byCreated))

/-- Query-parameter validation for `limit` (`Query(le=20)`, default 20). -/
def validateLimit (rawLimit : Option Int) : Except Err Int :=
  match rawLimit with
  | none => .ok 20
  | some l => if l ≤ 20 then .ok l else .error .validationError

/-- `GET /tasks` including the `limit` query-parameter validation. -/
def get_tasks_endpoint (s : AppState) (offset : Int) (rawLimit : Option Int)
    (status : Option Bool) : Except Err (List Task) :=
  (validateLimit rawLimit).map (fun limit => get_tasks s offset limit status)

/-- `GET /tasks/{task_id}` handler (`get_task`):
`select(Task).where(Task.id == task_id)` then `.first()`; 404 when absent. -/
def get_task (s : AppState) (task_id : Int) : Except Err Task :=
  match s.rows.find? (fun t => t.id == task_id) with
  | none => .error .notFound
  | some t => .ok t

/-- In-place mutation of the (first, and by primary-key uniqueness only) row
with the given id, as done by `session.get` + attribute writes + `commit`. -/
def updateRow (rows : List Task) (task_id : Int) (f : Task → Task) :
    List Task :=
  match rows with
  | [] => []
  | t :: ts =>
    if t.id == task_id then f t :: ts else t :: updateRow ts task_id f

/-- `PUT /tasks/{task_id}` handler (`update_task`): 404 when the id is
absent; otherwise overwrite `title` and `completed` unconditionally and
persist; `id` and `created_at` are not touched. -/
def update_task (s : AppState) (task_id : Int) (u : UpdateTask) :
    Except Err (Task × AppState) :=
  match s.rows.find? (fun t => t.id == task_id) with
  | none => .error .notFound
  | some task =>
    let task1 := { task with title := u.title, completed := u.completed }
    .ok (task1,
      ⟨updateRow s.rows task_id
        (fun t => { t with title := u.title, completed := u.completed })⟩)

/-- `PATCH /tasks/{task_id}` handler (`partial_update`) after body
validation; `none` models an omitted request body (`updated_task = None`).
The source dereferences `updated_task.title` with no `None` guard, which in
Python raises `AttributeError`: modelled as `Err.attributeFault`.  For a
validated `UpdateTask` both fields are required non-Optional, so the
`is not None` guards always pass and both fields are overwritten. -/
def partial_update (s : AppState) (task_id : Int)
    (updated_task : Option UpdateTask) : Except Err (Task × AppState) :=
  match s.rows.find? (fun t => t.id == task_id) with
  | none => .error .notFound
  | some task =>
    match updated_task with
    | none => .error .attributeFault
    | some u =>
      let task1 := { task with title := u.title, completed := u.completed }
      .ok (task1,
        ⟨updateRow s.rows task_id
          (fun t => { t with title := u.title, completed := u.completed })⟩)

/-- `PATCH /tasks/{task_id}` including the body-validation layer: an absent
body passes `None` through (the parameter is `Optional` with default
`None`); a present body must validate as `UpdateTask`. -/
def patch_endpoint (s : AppState) (task_id : Int) (body : Option RawUpdate) :
    Except Err (Task × AppState) :=
  match body with
  | none => partial_update s task_id none
  | some raw => (validateUpdate raw).bind (fun u => partial_update s task_id (some u))

/-- `DELETE /tasks/{task_id}` handler (`delete_task`): 404 when absent;
otherwise delete the row and return the confirmation literal. -/
def delete_task (s : AppState) (task_id : Int) :
    Except Err ((String × Bool) × AppState) :=
  match s.rows.find? (fun t => t.id == task_id) with
  | none => .error .notFound
  | some _ =>
    .ok (("task deleted", true), ⟨s.rows.eraseP (fun t => t.id == task_id)⟩)

/-! ### Concrete fixtures (used by witnesses and counterexamples) -/

/-- A stored task with id 1. -/
def t1ex : Task := ⟨1, "buy milk", false, 100⟩

/-- A stored task with id 2. -/
def t2ex : Task := ⟨2, "walk dog", true, 101⟩

/-- A two-row database. -/
def sEx : AppState := ⟨[t1ex, t2ex]⟩

/-! ### Lemmas about id generation, lookup, deletion and row update -/

theorem maxId_nil : maxId [] = 0 := rfl

theorem maxId_cons (a : Task) (l : List Task) :
    maxId (a :: l) = max a.id (maxId l) := rfl

theorem mem_le_maxId {rows : List Task} {t : Task} (h : t ∈ rows) :
    t.id ≤ maxId rows := by
  induction rows with
  | nil => cases h
  | cons a l ih =>
    rw [maxId_cons]
    rcases List.mem_cons.mp h with rfl | h2
    · exact le_max_left _ _
    · exact le_trans (ih h2) (le_max_right _ _)

theorem maxId_nonneg (rows : List Task) : 0 ≤ maxId rows := by
  induction rows with
  | nil => rw [maxId_nil]
  | cons a l ih => rw [maxId_cons]; exact le_trans ih (le_max_right _ _)

theorem genId_pos (s : AppState) : 0 < s.genId := by
  have h := maxId_nonneg s.rows
  unfold AppState.genId
  omega

theorem genId_fresh (s : AppState) : ∀ u ∈ s.rows, u.id ≠ s.genId := by
  intro u hu
  have h := mem_le_maxId hu
  unfold AppState.genId
  omega

theorem find?_id_eq_of_wf {rows : List Task} {t : Task} {i : Int}
    (hwf : rows.Pairwise fun a b => a.id ≠ b.id) (hm : t ∈ rows)
    (hi : t.id = i) : rows.find? (fun x => x.id == i) = some t := by
  induction rows with
  | nil => cases hm
  | cons a l ih =>
    have hp := List.pairwise_cons.mp hwf
    rcases List.mem_cons.mp hm with rfl | hm2
    · rw [List.find?_cons_of_pos _ (by simpa using hi)]
    · have hne : a.id ≠ t.id := hp.1 t hm2
      rw [List.find?_cons_of_neg _ (by simp only [beq_iff_eq]; omega)]
      exact ih hp.2 hm2

theorem eraseP_id_ne {rows : List Task} {i : Int}
    (hwf : rows.Pairwise fun a b => a.id ≠ b.id) :
    ∀ u ∈ rows.eraseP (fun t => t.id == i), u.id ≠ i := by
  induction rows with
  | nil => intro u hu; cases hu
  | cons a l ih =>
    have hp := List.pairwise_cons.mp hwf
    by_cases ha : a.id = i
    · rw [List.eraseP_cons_of_pos (by simpa using ha)]
      intro u hu hui
      exact hp.1 u hu (by omega)
    · rw [List.eraseP_cons_of_neg (by simpa using ha)]
      intro u hu
      rcases List.mem_cons.mp hu with rfl | hu2
      · exact ha
      · exact ih hp.2 u hu2

theorem mem_eraseP_of_id_ne {rows : List Task} {i : Int} :
    ∀ u ∈ rows, u.id ≠ i → u ∈ rows.eraseP (fun t => t.id == i) := by
  induction rows with
  | nil => intro u hu; cases hu
  | cons a l ih =>
    intro u hu hui
    by_cases ha : a.id = i
    · rw [List.eraseP_cons_of_pos (by simpa using ha)]
      rcases List.mem_cons.mp hu with rfl | hu2
      · exact absurd ha hui
      · exact hu2
    · rw [List.eraseP_cons_of_neg (by simpa using ha)]
      rcases List.mem_cons.mp hu with rfl | hu2
      · exact List.mem_cons_self _ _
      · exact List.mem_cons_of_mem _ (ih u hu2 hui)

theorem updateRow_cons_pos {a : Task} {l : List Task} {i : Int}
    {f : Task → Task} (h : a.id = i) :
    updateRow (a :: l) i f = f a :: l := by
  simp [updateRow, h]

theorem updateRow_cons_neg {a : Task} {l : List Task} {i : Int}
    {f : Task → Task} (h : a.id ≠ i) :
    updateRow (a :: l) i f = a :: updateRow l i f := by
  simp [updateRow, h]

theorem updateRow_frame {rows : List Task} {i : Int} {f : Task → Task} :
    ∀ v ∈ rows, v.id ≠ i → v ∈ updateRow rows i f := by
  induction rows with
  | nil => intro v hv; cases hv
  | cons a l ih =>
    intro v hv hvi
    by_cases ha : a.id = i
    · rw [updateRow_cons_pos ha]
      rcases List.mem_cons.mp hv with rfl | hv2
      · exact absurd ha hvi
      · exact List.mem_cons_of_mem _ hv2
    · rw [updateRow_cons_neg ha]
      rcases List.mem_cons.mp hv with rfl | hv2
      · exact List.mem_cons_self _ _
      · exact List.mem_cons_of_mem _ (ih v hv2 hvi)

theorem updateRow_self_mem {rows : List Task} {i : Int} {f : Task → Task}
    {t : Task} (hf : rows.find? (fun x => x.id == i) = some t) :
    f t ∈ updateRow rows i f := by
  induction rows with
  | nil => cases hf
  | cons a l ih =>
    by_cases ha : a.id = i
    · rw [List.find?_cons_of_pos _ (by simpa using ha)] at hf
      injection hf with hf
      rw [updateRow_cons_pos ha, hf]
      exact List.mem_cons_self _ _
    · rw [List.find?_cons_of_neg _ (by simpa using ha)] at hf
      rw [updateRow_cons_neg ha]
      exact List.mem_cons_of_mem _ (ih hf)

theorem updateRow_mem_of_find? {rows : List Task} {i : Int} {f : Task → Task}
    {t : Task} (hf : rows.find? (fun x => x.id == i) = some t) :
    ∀ v ∈ updateRow rows i f, v ∈ rows ∨ v = f t := by
  induction rows with
  | nil => intro v hv; cases hv
  | cons a l ih =>
    by_cases ha : a.id = i
    · rw [List.find?_cons_of_pos _ (by simpa using ha)] at hf
      injection hf with hf
      rw [updateRow_cons_pos ha]
      intro v hv
      rcases List.mem_cons.mp hv with rfl | hv2
      · right; rw [hf]
      · left; exact List.mem_cons_of_mem _ hv2
    · rw [List.find?_cons_of_neg _ (by simpa using ha)] at hf
      rw [updateRow_cons_neg ha]
      intro v hv
      rcases List.mem_cons.mp hv with rfl | hv2
      · left; exact List.mem_cons_self _ _
      · rcases ih hf v hv2 with h | h
        · left; exact List.mem_cons_of_mem _ h
        · right; exact h

/-! ### Claim theorems -/

/-- C1: a create request whose payload supplies only a title (completed and
created_at unset) persists a task whose completed field is false, whose
created_at is today, and whose id is a newly assigned positive integer
distinct from the id of every task in storage. -/
theorem create_only_title_correct (today : Date) (s : AppState)
    (title : String) :
    ∃ t s1, create_endpoint today s ⟨some title, none, none⟩ = .ok (t, s1) ∧
      t.title = title ∧ t.completed = false ∧ t.created_at = today ∧
      0 < t.id ∧ (∀ u ∈ s.rows, u.id ≠ t.id) ∧ s1.rows = s.rows ++ [t] := by
  exact ⟨_, _, rfl, rfl, rfl, rfl, genId_pos s,
    fun u hu => genId_fresh s u hu, rfl⟩

/-- C9: creating a task and immediately getting it by the returned id yields
a task equal in all fields to the one returned by create. -/
theorem create_then_get_roundtrip (today : Date) (s : AppState)
    (tc : TaskCreate) :
    get_task (create_task today s tc).2 (create_task today s tc).1.id =
      .ok (create_task today s tc).1 := by
  have hnone : s.rows.find? (fun x => x.id == s.genId) = none := by
    rw [List.find?_eq_none]
    intro u hu
    simp only [beq_iff_eq]
    exact genId_fresh s u hu
  unfold create_task get_task
  simp [List.find?_append, hnone]

/-- C7: get-by-id returns the stored task with the requested id when one
exists, and fails Not-Found exactly when no stored task has that id. -/
theorem get_task_correct (s : AppState) (task_id : Int) :
    (get_task s task_id = .error .notFound ↔ ∀ t ∈ s.rows, t.id ≠ task_id) ∧
    (∀ t, get_task s task_id = .ok t → t ∈ s.rows ∧ t.id = task_id) ∧
    (s.WF → ∀ t ∈ s.rows, t.id = task_id → get_task s task_id = .ok t) := by
  refine ⟨?_, ?_, ?_⟩
  · cases hf : s.rows.find? (fun x => x.id == task_id) with
    | none =>
      simp only [get_task, hf]
      rw [List.find?_eq_none] at hf
      constructor
      · intro _ t ht
        simpa using hf t ht
      · intro _
        trivial
    | some t =>
      simp only [get_task, hf]
      constructor
      · intro h
        cases h
      · intro hall
        exfalso
        exact hall t (List.mem_of_find?_eq_some hf)
          (by simpa using List.find?_some hf)
  · intro t h
    cases hf : s.rows.find? (fun x => x.id == task_id) with
    | none => simp [get_task, hf] at h
    | some t2 =>
      simp only [get_task, hf, Except.ok.injEq] at h
      subst h
      exact ⟨List.mem_of_find?_eq_some hf, by simpa using List.find?_some hf⟩
  · intro hwf t ht hi
    simp only [get_task, find?_id_eq_of_wf hwf ht hi]

/-- C8: delete fails Not-Found when no task has the id, and otherwise
removes exactly that task and returns the confirmation value, after which a
get-by-id for the same id fails Not-Found while every other task remains. -/
theorem delete_task_correct (s : AppState) (task_id : Int) (hwf : s.WF) :
    ((∀ t ∈ s.rows, t.id ≠ task_id) →
      delete_task s task_id = .error .notFound) ∧
    (∀ t ∈ s.rows, t.id = task_id →
      ∃ s1, delete_task s task_id = .ok (("task deleted", true), s1) ∧
        get_task s1 task_id = .error .notFound ∧
        (∀ u ∈ s.rows, u.id ≠ task_id → u ∈ s1.rows) ∧
        (∀ u ∈ s1.rows, u ∈ s.rows)) := by
  constructor
  · intro hall
    have hf : s.rows.find? (fun x => x.id == task_id) = none := by
      rw [List.find?_eq_none]
      intro u hu
      simpa using hall u hu
    simp [delete_task, hf]
  · intro t ht hi
    have hf := find?_id_eq_of_wf hwf ht hi
    refine ⟨⟨s.rows.eraseP (fun x => x.id == task_id)⟩, ?_, ?_, ?_, ?_⟩
    · simp [delete_task, hf]
    · have hnone :
          (s.rows.eraseP (fun x => x.id == task_id)).find?
            (fun x => x.id == task_id) = none := by
        rw [List.find?_eq_none]
        intro u hu
        simp only [beq_iff_eq]
        exact eraseP_id_ne hwf u hu
      simp [get_task, hnone]
    · intro u hu hune
      exact mem_eraseP_of_id_ne u hu hune
    · intro u hu
      exact (List.eraseP_sublist s.rows).subset hu

/-- C4: full update fails Not-Found when no task has the id; otherwise it
overwrites title and completed with the payload values, keeps id and
created_at unchanged, persists the row, and leaves every other task
untouched. -/
theorem update_task_correct (s : AppState) (task_id : Int) (u : UpdateTask) :
    ((∀ t ∈ s.rows, t.id ≠ task_id) →
      update_task s task_id u = .error .notFound) ∧
    (s.WF → ∀ t ∈ s.rows, t.id = task_id →
      ∃ r s1, update_task s task_id u = .ok (r, s1) ∧
        r.title = u.title ∧ r.completed = u.completed ∧
        r.id = t.id ∧ r.created_at = t.created_at ∧
        r ∈ s1.rows ∧
        (∀ v ∈ s.rows, v.id ≠ task_id → v ∈ s1.rows) ∧
        (∀ v ∈ s1.rows, v ∈ s.rows ∨ v = r)) := by
  constructor
  · intro hall
    have hf : s.rows.find? (fun x => x.id == task_id) = none := by
      rw [List.find?_eq_none]
      intro v hv
      simpa using hall v hv
    simp [update_task, hf]
  · intro hwf t ht hi
    have hf := find?_id_eq_of_wf hwf ht hi
    refine ⟨{t with title := u.title, completed := u.completed},
      ⟨updateRow s.rows task_id
        (fun x => { x with title := u.title, completed := u.completed })⟩,
      ?_, rfl, rfl, rfl, rfl, ?_, ?_, ?_⟩
    · simp [update_task, hf]
    · exact updateRow_self_mem hf
    · intro v hv hvne
      exact updateRow_frame v hv hvne
    · exact updateRow_mem_of_find? hf

/-- C2 counterexample: on a state holding task id 1, a PATCH body supplying
only completed (title absent) is rejected by input validation — the
operation does not overwrite completed. -/
theorem patch_only_completed_cex :
    patch_endpoint sEx 1 (some ⟨none, some true⟩) =
      .error .validationError := rfl

/-- C2 amended: the PATCH DTO requires both fields, so a payload with title
or completed absent is rejected by input validation with no change to any
task; a payload supplying both overwrites both fields of the addressed
task. -/
theorem patch_requires_both_fields (s : AppState) (task_id : Int)
    (raw : RawUpdate) :
    ((raw.title = none ∨ raw.completed = none) →
      patch_endpoint s task_id (some raw) = .error .validationError) ∧
    (∀ title c, raw.title = some title → raw.completed = some c →
      s.WF → ∀ t ∈ s.rows, t.id = task_id →
      ∃ s1, patch_endpoint s task_id (some raw) =
        .ok ({ t with title := title, completed := c }, s1)) := by
  rcases raw with ⟨rt, rc⟩
  constructor
  · intro h
    rcases h with h | h
    · obtain rfl : rt = none := h
      cases rc <;> rfl
    · obtain rfl : rc = none := h
      cases rt <;> rfl
  · intro title c hT hC hwf t ht hi
    obtain rfl : rt = some title := hT
    obtain rfl : rc = some c := hC
    have hf := find?_id_eq_of_wf hwf ht hi
    refine ⟨⟨updateRow s.rows task_id
      (fun x => { x with title := title, completed := c })⟩, ?_⟩
    simp only [patch_endpoint, validateUpdate, partial_update, hf]
    rfl

/-- C3: with a task of id 1 in storage, PATCH on id 1 with the request body
omitted dereferences the absent payload (`updated_task.title` with
`updated_task = None`) and faults with an AttributeError (HTTP 500) instead
of returning the task unchanged or a validation error. -/
theorem patch_omitted_body_faults :
    patch_endpoint sEx 1 none = .error .attributeFault := rfl

/-- The completion predicate that the list operation filters by: no
constraint when status is omitted, equality with the flag otherwise. -/
def statusPred (status : Option Bool) (t : Task) : Bool :=
  match status with
  | none => true
  | some b => t.completed == b

theorem applyStatusFilter_eq_filter (status : Option Bool) (l : List Task) :
    applyStatusFilter status l = l.filter (statusPred status) := by
  cases status with
  | none =>
    rw [show statusPred none = fun _ : Task => true from rfl]
    simp [applyStatusFilter]
  | some b =>
    cases b with
    | true =>
      rw [show statusPred (some true) = fun t : Task => t.completed == true from rfl]
      simp [applyStatusFilter]
    | false =>
      rw [show statusPred (some false) = fun t : Task => t.completed == false from rfl]
      simp [applyStatusFilter]

/-- C5: the list operation returns only tasks matching the status filter
(no filter when status is omitted), sorted non-decreasing by created_at, as
a contiguous window of the sorted filtered rows with offset applied before
limit: its length is min limit (filtered - offset), and with offset 0 and a
limit at least the filtered count it returns exactly the filtered tasks. -/
theorem get_tasks_correct (s : AppState) (offset limit : Int)
    (status : Option Bool) :
    (∀ t ∈ get_tasks s offset limit status, ∀ b, status = some b →
      t.completed = b) ∧
    (get_tasks s offset limit status).Pairwise
      (fun a b => a.created_at ≤ b.created_at) ∧
    (get_tasks s offset limit status).Sublist
      ((s.rows.filter (statusPred status)).mergeSort byCreated) ∧
    (0 ≤ limit → (get_tasks s offset limit status).length =
      min limit.toNat
        ((s.rows.filter (statusPred status)).length - offset.toNat)) ∧
    (offset = 0 → 0 ≤ limit →
      (s.rows.filter (statusPred status)).length ≤ limit.toNat →
      (get_tasks s offset limit status).Perm
        (s.rows.filter (statusPred status))) := by
  have hsub : (get_tasks s offset limit status).Sublist
      ((s.rows.filter (statusPred status)).mergeSort byCreated) := by
    unfold get_tasks applyLimit applyOffset
    rw [applyStatusFilter_eq_filter]
    by_cases h : limit < 0
    · rw [if_pos h]
      exact List.drop_sublist _ _
    · rw [if_neg h]
      exact (List.take_sublist _ _).trans (List.drop_sublist _ _)
  have hmemf : ∀ t ∈ get_tasks s offset limit status,
      statusPred status t = true := by
    intro t ht
    have h1 := (List.mergeSort_perm
      (s.rows.filter (statusPred status)) byCreated).subset (hsub.subset ht)
    exact List.of_mem_filter h1
  refine ⟨?_, ?_, hsub, ?_, ?_⟩
  · intro t ht b hb
    subst hb
    simpa [statusPred] using hmemf t ht
  · have hsorted := @List.sorted_mergeSort Task byCreated
      (fun a b c h1 h2 => by
        simp only [byCreated, decide_eq_true_eq] at *
        exact Nat.le_trans h1 h2)
      (fun a b => by
        simp only [byCreated, Bool.or_eq_true, decide_eq_true_eq]
        exact Nat.le_total _ _)
      (s.rows.filter (statusPred status))
    exact List.Pairwise.sublist hsub
      (hsorted.imp (fun hab => by simpa [byCreated] using hab))
  · intro hlim
    unfold get_tasks applyLimit applyOffset
    rw [applyStatusFilter_eq_filter, if_neg (by omega),
      List.length_take, List.length_drop,
      (List.mergeSort_perm _ _).length_eq]
  · intro h0 hlim hlen
    subst h0
    unfold get_tasks applyLimit applyOffset
    rw [applyStatusFilter_eq_filter, if_neg (by omega)]
    rw [show ((0 : Int).toNat = 0) from rfl, List.drop_zero,
      List.take_of_length_le
        (by rw [(List.mergeSort_perm _ _).length_eq]; exact hlen)]
    exact List.mergeSort_perm _ _

/-- C6: a list request with limit greater than 20 is rejected by input
validation; a limit of at most 20 is accepted and the handler runs. -/
theorem limit_capped_at_20 (s : AppState) (offset : Int)
    (status : Option Bool) (l : Int) :
    (20 < l → get_tasks_endpoint s offset (some l) status =
      .error .validationError) ∧
    (l ≤ 20 →
      get_tasks_endpoint s offset (some l) status =
        .ok (get_tasks s offset l status)) := by
  constructor
  · intro h
    have hne : ¬ l ≤ 20 := by omega
    simp [get_tasks_endpoint, validateLimit, hne, Except.map]
  · intro h
    simp [get_tasks_endpoint, validateLimit, h, Except.map]

/-- C10 counterexample: a create payload whose title is the empty string is
accepted, and the empty-titled task is persisted — no non-emptiness
invariant holds of stored titles. -/
theorem create_empty_title_cex :
    create_endpoint 100 ⟨[]⟩ ⟨some "", none, none⟩ =
      .ok (⟨1, "", false, 100⟩, ⟨[⟨1, "", false, 100⟩]⟩) := rfl

/-- C10 amended: a title is required on creation — a payload without one is
rejected by input validation — but any string is accepted, including the
empty string, and is stored unchanged; no non-emptiness of stored titles is
enforced. -/
theorem create_title_required_any_string (today : Date) (s : AppState)
    (r : RawCreate) :
    (r.title = none → create_endpoint today s r = .error .validationError) ∧
    (∀ title, r.title = some title →
      ∃ t s1, create_endpoint today s r = .ok (t, s1) ∧ t.title = title ∧
        s1.rows = s.rows ++ [t]) := by
  rcases r with ⟨rt, rc, rca⟩
  constructor
  · intro h
    obtain rfl : rt = none := h
    rfl
  · intro title h
    obtain rfl : rt = some title := h
    exact ⟨_, _, rfl, rfl, rfl⟩

/-! ### Witnesses: the claim theorems applied at concrete inputs -/

theorem sEx_wf : sEx.WF := by
  unfold AppState.WF
  decide

/-- Witness for the C7 theorem: id 3 is absent and id 1 is found. -/
theorem get_task_correct_witness :
    get_task sEx 3 = .error .notFound ∧ get_task sEx 1 = .ok t1ex :=
  ⟨(get_task_correct sEx 3).1.mpr (by decide),
   (get_task_correct sEx 1).2.2 sEx_wf t1ex (by decide) rfl⟩

/-- Witness for the C8 theorem: deleting task 2 from the two-row state. -/
theorem delete_task_correct_witness :
    ∃ s1, delete_task sEx 2 = .ok (("task deleted", true), s1) ∧
      get_task s1 2 = .error .notFound ∧
      (∀ u ∈ sEx.rows, u.id ≠ 2 → u ∈ s1.rows) ∧
      (∀ u ∈ s1.rows, u ∈ sEx.rows) :=
  (delete_task_correct sEx 2 sEx_wf).2 t2ex (by decide) rfl

/-- Witness for the C4 theorem: full update of task 1. -/
theorem update_task_correct_witness :
    ∃ r s1, update_task sEx 1 ⟨"buy bread", true⟩ = .ok (r, s1) ∧
      r.title = "buy bread" ∧ r.completed = true ∧
      r.id = t1ex.id ∧ r.created_at = t1ex.created_at ∧
      r ∈ s1.rows ∧
      (∀ v ∈ sEx.rows, v.id ≠ 1 → v ∈ s1.rows) ∧
      (∀ v ∈ s1.rows, v ∈ sEx.rows ∨ v = r) :=
  (update_task_correct sEx 1 ⟨"buy bread", true⟩).2 sEx_wf t1ex (by decide) rfl

/-- Witness for the C2 amended theorem: a body missing completed is
rejected, a full body updates both fields of task 1. -/
theorem patch_requires_both_fields_witness :
    patch_endpoint sEx 1 (some ⟨some "t", none⟩) = .error .validationError ∧
    ∃ s1, patch_endpoint sEx 1 (some ⟨some "t", some true⟩) =
      .ok ({ t1ex with title := "t", completed := true }, s1) :=
  ⟨(patch_requires_both_fields sEx 1 ⟨some "t", none⟩).1 (Or.inr rfl),
   (patch_requires_both_fields sEx 1 ⟨some "t", some true⟩).2 "t" true rfl rfl
     sEx_wf t1ex (by decide) rfl⟩

/-- Witness for the C5 theorem: the unfiltered listing of the two-row state
with default paging returns exactly the stored tasks, and the length
equation holds. -/
theorem get_tasks_correct_witness :
    (get_tasks sEx 0 20 none).Perm (sEx.rows.filter (statusPred none)) ∧
    (get_tasks sEx 0 20 none).length =
      min (20 : Int).toNat
        ((sEx.rows.filter (statusPred none)).length - (0 : Int).toNat) :=
  ⟨(get_tasks_correct sEx 0 20 none).2.2.2.2 rfl (by decide) (by decide),
   (get_tasks_correct sEx 0 20 none).2.2.2.1 (by decide)⟩

/-- Witness for the C6 theorem: limit 21 is rejected, limit 20 accepted. -/
theorem limit_capped_at_20_witness :
    get_tasks_endpoint sEx 0 (some 21) none = .error .validationError ∧
    get_tasks_endpoint sEx 0 (some 20) none =
      .ok (get_tasks sEx 0 20 none) :=
  ⟨(limit_capped_at_20 sEx 0 none 21).1 (by decide),
   (limit_capped_at_20 sEx 0 none 20).2 (by decide)⟩

/-- Witness for the C10 amended theorem: a payload without a title is
rejected; an empty-string title is accepted and stored. -/
theorem create_title_required_any_string_witness :
    create_endpoint 100 sEx ⟨none, none, none⟩ = .error .validationError ∧
    ∃ t s1, create_endpoint 100 sEx ⟨some "", none, none⟩ = .ok (t, s1) ∧
      t.title = "" ∧ s1.rows = sEx.rows ++ [t] :=
  ⟨(create_title_required_any_string 100 sEx ⟨none, none, none⟩).1 rfl,
   (create_title_required_any_string 100 sEx ⟨some "", none, none⟩).2 "" rfl⟩

end ToDo
